import Mathlib

/-!
Verification development for the livepeer-swarm mediaserver
(routing-and-subscription-lifecycle layer).

The definitions below are a shallow embedding of the handlers registered in
`mediaserver.go` (`StartLPMS`, `startHlsUnsubscribeWorker`, `parseStreamID`)
together with a small transition system for the HLS subscription-activity map.
External collaborators (Streamer registry, Forwarder, viz client) are modelled
as environment parameters plus an explicit effect trace, so that "the handler
invokes X exactly once" becomes a statement about the trace.  Durations are
modelled in milliseconds as naturals; each iteration of the HLS readiness loop
advances time by the 2s sleep plus a nonnegative per-iteration overhead
parameter (poll cost, scheduling), which is how real elapsed time enters the
model.
-/

namespace Mediaserver

/-- Stream format tag, mirrors `lpmsStream.RTMP` / `lpmsStream.HLS`. -/
inductive StreamFormat where
  | rtmp
  | hls
deriving DecidableEq, Repr

/-- Error values the mediaserver handlers can return.  `notFound` is the
`ErrNotFound` sentinel (message "NotFound"), `streamNotFound` is the distinct
ad-hoc error `errors.New("Stream Not Found")` used by the address-validation
guards, `publish` is `ErrStreamPublish`, and `subscribeFail` stands for an
opaque error surfaced verbatim from a Streamer subscribe call. -/
inductive MSErr where
  | notFound
  | streamNotFound
  | publish
  | subscribeFail
deriving DecidableEq, Repr

/-- One observable call made by a handler to a collaborator (Streamer,
Forwarder, viz) or to the `hlsSubTimer` map.  Handlers return a list of these
in program order. -/
inductive Effect where
  | getNetworkStream (id : String)
  | forwardStream (id : String) (f : StreamFormat)
  | stopStream (id : String) (f : StreamFormat)
  | getMuxer (id sub : String)
  | subscribeHLS (id sub : String)
  | unsubscribeHLS (id sub : String)
  | subscribeRTMP (id sub : String)
  | unsubscribeRTMP (id sub : String)
  | refreshTimer (id : String)
  | addNew (id : String) (f : StreamFormat)
  | logConsume (id : String)
  | logBroadcast (id : String)
deriving DecidableEq, Repr

/-- `HLSWaitTime = time.Second * 10`, in milliseconds. -/
def HLSWaitTime : Nat := 10000

/-- The 2s sleep between readiness polls (`time.Sleep(time.Second * 2)`). -/
def pollInterval : Nat := 2000

/-- `HLSUnsubscribeWaitLimit = time.Second * 20`, in milliseconds. -/
def HLSUnsubscribeWaitLimit : Nat := 20000

/-! ## Address parsing (`parseStreamID`) -/

/-- Character class of the Go regexp `([[:alpha:]]|\d)`: ASCII letters and
digits. -/
def goAlnum (c : Char) : Bool :=
  ('A' ≤ c && c ≤ 'Z') || ('a' ≤ c && c ≤ 'z') || ('0' ≤ c && c ≤ '9')

/-- The literal characters of the pattern anchor "/stream/". -/
def streamMarker : List Char := ['/', 's', 't', 'r', 'e', 'a', 'm', '/']

/-- Leftmost match of the Go regexp `\/stream\/([[:alpha:]]|\d)*` with the
"/stream/" anchor stripped: at the first position where "/stream/" occurs,
take the maximal alphanumeric run that follows. Returns `none` when the
anchor does not occur. -/
def findStreamId : List Char → Option (List Char)
  | [] => none
  | c :: cs =>
    if streamMarker.isPrefixOf (c :: cs) then
      some (((c :: cs).drop 8).takeWhile goAlnum)
    else
      findStreamId cs

/-- Embedding of `parseStreamID` (mediaserver.go): Go's
`regex.FindString(reqPath)` followed by stripping "/stream/"; the empty
string when there is no match. -/
def parseStreamID (reqPath : String) : String :=
  match findStreamId reqPath.toList with
  | none => ""
  | some l => String.mk l

/-! ## Stream-address composition and decomposition

The `streaming.StreamID` type itself is not part of the extracted sources
(only its callers are), so the two functions below are modelled from the
spec. -/

/-- Width of the owner-node component: the node identifier is the node's
32-byte kademlia/bzz address (`common.HexToHash(config.BzzKey)` in
livepeer.go) rendered as 64 hex characters. -/
def nodeIdLen : Nat := 64

/-- Modelled from the spec: `Make(ownerNodeID, localStreamID)` composes the
canonical string form, the concatenation of the owner-node component and the
local-stream component (the separator between the fixed-width owner component
and the local component is empty). Mirrors the call sites
`streaming.MakeStreamID(streamer.SelfAddress, fmt.Sprintf("%x", ...))`. -/
def makeStreamID (nodeId localId : String) : String :=
  nodeId ++ localId

/-- Modelled from the spec: `SplitComponents(addr)` is the pure decomposition
of an address into its owner-node component (the fixed-width node identifier)
and its local-stream component; both must be non-empty for the address to be
considered valid. -/
def splitComponents (s : String) : String × String :=
  (String.mk (s.toList.take nodeIdLen), String.mk (s.toList.drop nodeIdLen))

/-! ## HLS readiness polling loop

The loop body of `HandleHLSPlay`: try `LatestPlaylist`; on success refresh the
activity timestamp and return the buffer; otherwise sleep 2s and give up with
`ErrNotFound` once `time.Since(startTime) > HLSWaitTime`.  `ready n` says
whether the n-th poll (0-indexed) succeeds, `d n` is the nonnegative extra
time (ms) iteration n takes beyond the 2s sleep. -/

/-- Outcome of the readiness loop: either the index of the successful poll and
the elapsed time at that poll, or the total number of polls attempted and the
elapsed time at which the wait ceiling was detected as exceeded. -/
inductive PollOut where
  | ready (attempt elapsed : Nat)
  | timeout (attempts elapsed : Nat)
deriving DecidableEq, Repr

/-- Number of `LatestPlaylist` attempts a poll outcome accounts for. -/
def pollAttempts : PollOut → Nat
  | .ready n _ => n + 1
  | .timeout m _ => m

/-- The readiness-polling loop of `HandleHLSPlay` (mediaserver.go lines
107-121), with time explicit. -/
def pollLoop (ready : Nat → Bool) (d : Nat → Nat) (n elapsed : Nat) : PollOut :=
  if ready n then
    .ready n elapsed
  else if HLSWaitTime < elapsed + pollInterval + d n then
    .timeout (n + 1) (elapsed + pollInterval + d n)
  else
    pollLoop ready d (n + 1) (elapsed + pollInterval + d n)
termination_by HLSWaitTime + pollInterval - elapsed
decreasing_by
  simp only [HLSWaitTime, pollInterval] at *
  omega

/-! ## The HLS playback handler (`HandleHLSPlay`) -/

/-- Environment for one `HandleHLSPlay` invocation: the collaborator responses
this request observes.  `selfNode` is `streamer.SelfAddress` (as the owner
component string), `hasNetworkStream` is whether `GetNetworkStream(strmID)`
returns non-nil, `existingMuxer` is the `GetHLSMuxer(strmID, "local")` result
(buffer handles are modelled by their identity string), `newBufferId` names
the freshly allocated `NewHLSBuffer`, `subscribeResult` is the error returned
by `SubscribeToHLSStream` (`none` for success), and `ready`/`overhead` drive
the readiness loop. -/
structure HlsPlayEnv where
  selfNode : String
  hasNetworkStream : Bool
  existingMuxer : Option String
  newBufferId : String
  subscribeResult : Option MSErr
  ready : Nat → Bool
  overhead : Nat → Nat

/-- Readiness-polling phase of `HandleHLSPlay`: on the first successful poll,
write `hlsSubTimer[strmID] = time.Now()` (the `refreshTimer` effect) and
return the buffer; on timeout return `ErrNotFound`. -/
def pollPhase (env : HlsPlayEnv) (buf id : String) : Except MSErr String × List Effect :=
  match pollLoop env.ready env.overhead 0 0 with
  | .ready _ _ => (.ok buf, [.refreshTimer id])
  | .timeout _ _ => (.error .notFound, [])

/-- Buffer-resolution phase of `HandleHLSPlay` (mediaserver.go lines 92-121):
look up the muxer for `(strmID, "local")`; if absent create a buffer and
subscribe it, surfacing a subscribe error verbatim; then poll for
readiness. -/
def bufferPhase (env : HlsPlayEnv) (id : String) : Except MSErr String × List Effect :=
  match env.existingMuxer with
  | some buf =>
    let r := pollPhase env buf id
    (r.1, .getMuxer id "local" :: r.2)
  | none =>
    match env.subscribeResult with
    | some e => (.error e, [.getMuxer id "local", .subscribeHLS id "local"])
    | none =>
      let r := pollPhase env env.newBufferId id
      (r.1, .getMuxer id "local" :: .subscribeHLS id "local" :: r.2)

/-- Embedding of the `HandleHLSPlay` callback (mediaserver.go lines 60-122):
parse and validate the stream ID, look up the `NetworkStream`, forward to the
network or fail with `ErrNotFound` depending on ownership when it is absent,
then resolve and poll the buffer. -/
def handleHLSPlay (reqPath : String) (env : HlsPlayEnv) : Except MSErr String × List Effect :=
  let id := parseStreamID reqPath
  let nodeID := (splitComponents id).1
  let streamID := (splitComponents id).2
  if id = "" ∨ streamID = "" then
    (.error .streamNotFound, [])
  else if env.hasNetworkStream = false ∧ env.selfNode ≠ nodeID then
    let r := bufferPhase env id
    (r.1, .getNetworkStream id :: .forwardStream id .hls :: r.2)
  else if env.hasNetworkStream = false ∧ env.selfNode = nodeID then
    (.error .notFound, [.getNetworkStream id])
  else
    let r := bufferPhase env id
    (r.1, .getNetworkStream id :: r.2)

/-! ## The idle reaper (`startHlsUnsubscribeWorker`) -/

/-- One sweep of the body of `startHlsUnsubscribeWorker` over the
`hlsSubTimer` entries: for each entry whose age exceeds `limit`, call
`UnsubscribeToHLSStream(sid, "local")` and `StopStream(sid, HLS)` and delete
the entry; keep the others.  Returns the effect trace and the surviving
entries. -/
def sweepStep (limit now : Nat) : List (String × Nat) → List Effect × List (String × Nat)
  | [] => ([], [])
  | (sid, t) :: rest =>
    let r := sweepStep limit now rest
    if limit < now - t then
      (.unsubscribeHLS sid "local" :: .stopStream sid .hls :: r.1, r.2)
    else
      (r.1, (sid, t) :: r.2)

/-! ## The RTMP publish resolver (the `getStream` callback of
`HandleRTMPPublish`) -/

/-- Environment for one publish resolution: `self` is
`streamer.SelfAddress`, `rand1`/`rand2` are the random tokens
(`fmt.Sprintf("%x", streaming.RandomStreamID())`) minted when the path or the
`hlsStrmID` query parameter supplies no address. -/
structure PublishEnv where
  self : String
  rand1 : String
  rand2 : String

/-- The `NetworkStream` registry, modelled from the spec as the authoritative
association of stream addresses to formats (`AddNewNetworkStream` prepends,
`GetNetworkStream` finds; no failure mode is specified for creation, so it is
modelled as total). -/
def regFind : List (String × StreamFormat) → String → Option StreamFormat
  | [], _ => none
  | (i, f) :: rest, j => if i = j then some f else regFind rest j

/-- Embedding of the `getStream` callback of `HandleRTMPPublish`
(mediaserver.go lines 130-174): determine the raw (RTMP) address from the path
or mint one, reject with `ErrStreamPublish` unless it is self-owned, reuse or
create the raw stream, then determine the packaged (HLS) address from the
query or mint one, apply the same ownership check, and unconditionally create
the packaged stream.  Returns the result, the updated registry, and the
effect trace. -/
def getStream (env : PublishEnv) (reqPath qHls : String)
    (reg : List (String × StreamFormat)) :
    Except MSErr (String × String) × List (String × StreamFormat) × List Effect :=
  let p := parseStreamID reqPath
  let rtmpId := if p = "" then makeStreamID env.self env.rand1 else p
  if (splitComponents rtmpId).1 ≠ env.self then
    (.error .publish, reg, [])
  else
    let found := regFind reg rtmpId
    let reg1 := if found.isSome then reg else (rtmpId, .rtmp) :: reg
    let effs1 :=
      Effect.getNetworkStream rtmpId ::
        (if found.isSome then [] else [Effect.addNew rtmpId .rtmp])
    let hlsId := if qHls = "" then makeStreamID env.self env.rand2 else qHls
    if (splitComponents hlsId).1 ≠ env.self then
      (.error .publish, reg1, effs1)
    else
      (.ok (rtmpId, hlsId), (hlsId, .hls) :: reg1,
        effs1 ++ [Effect.addNew hlsId .hls, Effect.logBroadcast rtmpId,
          Effect.logBroadcast hlsId])

/-! ## The RTMP playback handler (`HandleRTMPPlay`) -/

/-- Result of an RTMP playback request: either an early failure (parse or
subscribe), or termination of the copy loop with its terminal error
(`none` models a nil error from `avutil.CopyFile`). -/
inductive RtmpRes where
  | failure (e : MSErr)
  | copyDone (terminal : Option String)
deriving DecidableEq, Repr

/-- Environment for one `HandleRTMPPlay` invocation: `subId` is the random
ephemeral subscriber token, `subscribeResult` the `SubscribeToRTMPStream`
error (`none` for success), `copyResult` the terminal error of the
`avutil.CopyFile` loop. -/
structure RtmpPlayEnv where
  hasNetworkStream : Bool
  subId : String
  subscribeResult : Option MSErr
  copyResult : Option String

/-- Embedding of the `HandleRTMPPlay` callback (mediaserver.go lines
184-228): parse the stream ID (same inline regexp as `parseStreamID`), log
consumption, forward to the network when no local stream exists, subscribe a
fresh queue, run the copy loop, and on its termination unsubscribe the queue,
signal `StopStream` (whose own outcome is discarded), and return the copy
loop's terminal error. -/
def handleRTMPPlay (reqPath : String) (env : RtmpPlayEnv) : RtmpRes × List Effect :=
  let id := parseStreamID reqPath
  if id = "" then
    (.failure .streamNotFound, [])
  else
    let effs0 :=
      Effect.logConsume id :: Effect.getNetworkStream id ::
        (if env.hasNetworkStream then [] else [Effect.forwardStream id .rtmp])
    match env.subscribeResult with
    | some e => (.failure e, effs0 ++ [.subscribeRTMP id env.subId])
    | none =>
      (.copyDone env.copyResult,
        effs0 ++ [.subscribeRTMP id env.subId, .unsubscribeRTMP id env.subId,
          .stopStream id .rtmp])

/-! ## The `/createStream` HTTP handler -/

/-- Embedding of the `/createStream` handler (mediaserver.go lines 230-244).
`addResult` is the `(stream, error)` pair returned by `AddNewNetworkStream`
(the stream modelled by its ID, `none` for nil).  The handler destructures it
as `newRTMPStream, _ :=`, discarding the error component, and unconditionally
calls `newRTMPStream.GetStreamID()`; the `none` result models the nil
dereference that occurs when the stream is nil. -/
def createStreamHandler (addResult : Option String × Option String) :
    Option (List (String × String)) :=
  match addResult.1 with
  | some s => some [("streamID", s)]
  | none => none

/-! ## Transition system for the HLS subscription state

Modelled from the spec: the Streamer is the authoritative registry and
fan-out engine, and at most one local buffer subscription exists per address
("local" subscriber); `GetHLSMuxer` returns that buffer exactly when the
subscription is active, `SubscribeToHLSStream` activates it, and
`UnsubscribeToHLSStream` deactivates it.  A system state pairs the set of
active local HLS buffer subscriptions (driven by those calls) with the
`hlsSubTimer` activity map, and events are playback requests and reaper
sweeps. -/

/-- Joint state of the active local HLS buffer subscriptions and the
`hlsSubTimer` activity map (`timer` maps an address to its last-activity
timestamp, in ms). -/
structure SysState where
  subs : List String
  timer : List (String × Nat)
deriving Repr

/-- Data of one playback-request event: the request path, the
`GetNetworkStream` answer, whether `SubscribeToHLSStream` succeeds, the
readiness and overhead schedules of the polling loop, and the wall-clock
time `now` written into the activity map on a successful poll. -/
structure PlayEv where
  reqPath : String
  hasNet : Bool
  subOk : Bool
  ready : Nat → Bool
  d : Nat → Nat
  now : Nat

/-- An event of the HLS subsystem: a playback request, a reaper sweep at a
given wall-clock time, or the end of a publish session (`finishStream`)
force-unsubscribing an address. -/
inductive SysEv where
  | play (ev : PlayEv)
  | reap (now : Nat)
  | finish (addr : String)

/-- Whether an event is a publish-session finish. -/
def isFinish : SysEv → Bool
  | .finish _ => true
  | _ => false

/-- The handler environment a playback event sees in a given state:
`GetHLSMuxer` answers the buffer exactly when the local subscription for the
address is active (the Streamer reuses the buffer per address), and
subscribing succeeds according to the event data. -/
def playEnvOf (self : String) (s : SysState) (ev : PlayEv) : HlsPlayEnv :=
  { selfNode := self
    hasNetworkStream := ev.hasNet
    existingMuxer :=
      if parseStreamID ev.reqPath ∈ s.subs then some (parseStreamID ev.reqPath) else none
    newBufferId := parseStreamID ev.reqPath
    subscribeResult := if ev.subOk then none else some .subscribeFail
    ready := ev.ready
    overhead := ev.d }

/-- Effect of one `HandleHLSPlay` request on the subscription/activity state:
run the handler in the environment determined by the current state and the
event data, then interpret its effect trace — the subscription becomes active
when `SubscribeToHLSStream` was called and succeeded, and the activity entry
is written when the timer was refreshed. -/
def applyPlay (self : String) (s : SysState) (ev : PlayEv) : SysState :=
  let id := parseStreamID ev.reqPath
  let effs := (handleHLSPlay ev.reqPath (playEnvOf self s ev)).2
  let subs' :=
    if Effect.subscribeHLS id "local" ∈ effs ∧ ev.subOk = true then id :: s.subs
    else s.subs
  let timer' :=
    if Effect.refreshTimer id ∈ effs then
      (id, ev.now) :: s.timer.filter (fun p => decide (p.1 ≠ id))
    else s.timer
  ⟨subs', timer'⟩

/-- Effect of one reaper sweep on the state: the `hlsSubTimer` entries evolve
by `sweepStep`, and every address the sweep unsubscribed loses its local
buffer subscription. -/
def applyReap (limit now : Nat) (s : SysState) : SysState :=
  let r := sweepStep limit now s.timer
  ⟨s.subs.filter (fun a => decide (Effect.unsubscribeHLS a "local" ∉ r.1)), r.2⟩

/-- Effect of the `finishStream` callback (mediaserver.go lines 176-181) on
one of its two addresses: `UnsubscribeAll` force-unsubscribes every
subscriber of the address — including the "local" HLS buffer subscription —
unconditionally, while the `hlsSubTimer` activity map is not touched. -/
def applyFinish (addr : String) (s : SysState) : SysState :=
  ⟨s.subs.filter (fun a => decide (a ≠ addr)), s.timer⟩

/-- One step of the HLS subsystem. -/
def stepSys (self : String) (s : SysState) : SysEv → SysState
  | .play ev => applyPlay self s ev
  | .reap now => applyReap HLSUnsubscribeWaitLimit now s
  | .finish addr => applyFinish addr s

/-- Execution of the HLS subsystem over a list of events. -/
def runSys (self : String) (s : SysState) : List SysEv → SysState
  | [] => s
  | e :: es => runSys self (stepSys self s e) es

/-! ## Polling-loop lemmas -/

lemma pollLoop_of_ready {ready : Nat → Bool} {d : Nat → Nat} {n elapsed : Nat}
    (h : ready n = true) :
    pollLoop ready d n elapsed = .ready n elapsed := by
  unfold pollLoop
  simp [h]

lemma pollLoop_of_timeout {ready : Nat → Bool} {d : Nat → Nat} {n elapsed : Nat}
    (h : ready n = false)
    (h2 : HLSWaitTime < elapsed + pollInterval + d n) :
    pollLoop ready d n elapsed = .timeout (n + 1) (elapsed + pollInterval + d n) := by
  unfold pollLoop
  simp [h, h2]

lemma pollLoop_of_step {ready : Nat → Bool} {d : Nat → Nat} {n elapsed : Nat}
    (h : ready n = false)
    (h2 : ¬ HLSWaitTime < elapsed + pollInterval + d n) :
    pollLoop ready d n elapsed = pollLoop ready d (n + 1) (elapsed + pollInterval + d n) := by
  conv_lhs => unfold pollLoop
  simp [h, h2]

/-- With exactly-2s iterations (zero overhead) and a never-ready playlist, the
strict `time.Since(startTime) > HLSWaitTime` test only fires after the sixth
poll: elapsed time is exactly 10000 ms after five sleeps, which does not
exceed the ceiling. -/
lemma pollLoop_zero_overhead :
    pollLoop (fun _ => false) (fun _ => 0) 0 0 = .timeout 6 12000 := by
  rw [pollLoop_of_step rfl (by decide), pollLoop_of_step rfl (by decide),
    pollLoop_of_step rfl (by decide), pollLoop_of_step rfl (by decide),
    pollLoop_of_step rfl (by decide), pollLoop_of_timeout rfl (by decide)]
  norm_num [pollInterval]

/-- When every iteration takes strictly more than the 2s sleep but at most
2.5s (positive overhead up to half a second) and the playlist never becomes
ready, the loop times out after exactly five polls, the elapsed wait having
exceeded the 10s ceiling. -/
lemma pollLoop_timeout_five {ready : Nat → Bool} {d : Nat → Nat}
    (hr : ∀ k, ready k = false) (hd : ∀ k, 0 < d k ∧ d k ≤ 500) :
    ∃ e, pollLoop ready d 0 0 = .timeout 5 e ∧ HLSWaitTime < e := by
  have b0 := hd 0
  have b1 := hd 1
  have b2 := hd 2
  have b3 := hd 3
  have b4 := hd 4
  refine ⟨0 + pollInterval + d 0 + pollInterval + d 1 + pollInterval + d 2 +
    pollInterval + d 3 + pollInterval + d 4, ?_, ?_⟩
  · rw [pollLoop_of_step (hr 0) (by simp [HLSWaitTime, pollInterval]; omega),
      pollLoop_of_step (hr 1) (by simp [HLSWaitTime, pollInterval]; omega),
      pollLoop_of_step (hr 2) (by simp [HLSWaitTime, pollInterval]; omega),
      pollLoop_of_step (hr 3) (by simp [HLSWaitTime, pollInterval]; omega),
      pollLoop_of_timeout (hr 4) (by simp [HLSWaitTime, pollInterval]; omega)]
  · simp [HLSWaitTime, pollInterval]
    omega

/-- When the first successful poll happens at attempt `n ≤ 4` and every
iteration takes at most 2.5s, the loop reaches that attempt before the wait
ceiling and reports readiness there. -/
lemma pollLoop_ready_at {ready : Nat → Bool} {d : Nat → Nat} {n : Nat}
    (hn : n ≤ 4) (hbefore : ∀ k, k < n → ready k = false) (hready : ready n = true)
    (hd : ∀ k, d k ≤ 500) :
    ∃ e, pollLoop ready d 0 0 = .ready n e := by
  have b0 := hd 0
  have b1 := hd 1
  have b2 := hd 2
  have b3 := hd 3
  interval_cases n
  · exact ⟨0, pollLoop_of_ready hready⟩
  · exact ⟨_, by
      rw [pollLoop_of_step (hbefore 0 (by omega))
          (by simp [HLSWaitTime, pollInterval]; omega),
        pollLoop_of_ready hready]⟩
  · exact ⟨_, by
      rw [pollLoop_of_step (hbefore 0 (by omega))
          (by simp [HLSWaitTime, pollInterval]; omega),
        pollLoop_of_step (hbefore 1 (by omega))
          (by simp [HLSWaitTime, pollInterval]; omega),
        pollLoop_of_ready hready]⟩
  · exact ⟨_, by
      rw [pollLoop_of_step (hbefore 0 (by omega))
          (by simp [HLSWaitTime, pollInterval]; omega),
        pollLoop_of_step (hbefore 1 (by omega))
          (by simp [HLSWaitTime, pollInterval]; omega),
        pollLoop_of_step (hbefore 2 (by omega))
          (by simp [HLSWaitTime, pollInterval]; omega),
        pollLoop_of_ready hready]⟩
  · exact ⟨_, by
      rw [pollLoop_of_step (hbefore 0 (by omega))
          (by simp [HLSWaitTime, pollInterval]; omega),
        pollLoop_of_step (hbefore 1 (by omega))
          (by simp [HLSWaitTime, pollInterval]; omega),
        pollLoop_of_step (hbefore 2 (by omega))
          (by simp [HLSWaitTime, pollInterval]; omega),
        pollLoop_of_step (hbefore 3 (by omega))
          (by simp [HLSWaitTime, pollInterval]; omega),
        pollLoop_of_ready hready]⟩

/-! ## Parsing lemmas -/

lemma isPrefixOf_append_self {α : Type} [BEq α] [LawfulBEq α] (l₁ l₂ : List α) :
    l₁.isPrefixOf (l₁ ++ l₂) = true :=
  List.isPrefixOf_iff_prefix.mpr (List.prefix_append l₁ l₂)

/-- The leftmost "/stream/" occurrence of a path that starts with the anchor
is at position 0, and the extracted ID is the maximal alphanumeric run that
follows. -/
lemma findStreamId_marker (l : List Char) :
    findStreamId (streamMarker ++ l) = some (l.takeWhile goAlnum) := by
  have h8 : streamMarker.length = 8 := by decide
  rw [show streamMarker ++ l = '/' :: (['s', 't', 'r', 'e', 'a', 'm', '/'] ++ l) by
    simp [streamMarker]]
  rw [findStreamId]
  have hpre : streamMarker.isPrefixOf ('/' :: (['s', 't', 'r', 'e', 'a', 'm', '/'] ++ l))
      = true := by
    have h := isPrefixOf_append_self streamMarker l
    simp only [streamMarker, List.cons_append] at h
    exact h
  rw [if_pos hpre]
  have hdrop : ('/' :: (['s', 't', 'r', 'e', 'a', 'm', '/'] ++ l)).drop 8 = l := by
    have h := List.drop_left streamMarker l
    simp only [streamMarker, h8, List.cons_append] at h
    exact h
  rw [hdrop]

/-- Parsing a path of the shape "/stream/" followed by an alphanumeric string
recovers that string. -/
lemma parseStreamID_marker (s : String) (h : ∀ c ∈ s.toList, goAlnum c = true) :
    parseStreamID ("/stream/" ++ s) = s := by
  have hdata : ("/stream/" ++ s).toList = streamMarker ++ s.toList := by
    show ("/stream/" ++ s).data = streamMarker ++ s.data
    rw [String.data_append]
    rfl
  rw [parseStreamID, hdata, findStreamId_marker]
  rw [List.takeWhile_eq_self_iff.mpr h]
  rfl

/-- Splitting the concatenation of a full-width owner component with a local
component recovers the two components. -/
lemma splitComponents_make (owner local_ : String) (h : owner.length = nodeIdLen) :
    splitComponents (makeStreamID owner local_) = (owner, local_) := by
  rw [splitComponents, makeStreamID]
  have hdata : (owner ++ local_).toList = owner.data ++ local_.data := by
    show (owner ++ local_).data = owner.data ++ local_.data
    exact String.data_append owner local_
  rw [hdata]
  have hlen : owner.data.length = nodeIdLen := h
  rw [← hlen, List.take_left, List.drop_left]

instance : DecidableEq (Except MSErr String) := fun a b =>
  match a, b with
  | .ok x, .ok y => decidable_of_iff (x = y) (by simp)
  | .error x, .error y => decidable_of_iff (x = y) (by simp)
  | .ok _, .error _ => isFalse (by simp)
  | .error _, .ok _ => isFalse (by simp)

/-! ## Effect-trace shape lemmas for the HLS playback handler -/

/-- The buffer phase emits one of four effect traces, depending on whether the
muxer already existed, whether subscribing failed, and whether polling
succeeded. -/
lemma bufferPhase_effects (env : HlsPlayEnv) (id : String) :
    (bufferPhase env id).2 = [.getMuxer id "local"] ∨
    (bufferPhase env id).2 = [.getMuxer id "local", .refreshTimer id] ∨
    (bufferPhase env id).2 = [.getMuxer id "local", .subscribeHLS id "local"] ∨
    (bufferPhase env id).2 =
      [.getMuxer id "local", .subscribeHLS id "local", .refreshTimer id] := by
  unfold bufferPhase pollPhase
  cases env.existingMuxer with
  | some b => cases pollLoop env.ready env.overhead 0 0 <;> simp
  | none =>
    cases env.subscribeResult with
    | some e => simp
    | none => cases pollLoop env.ready env.overhead 0 0 <;> simp

/-! ## Concrete inputs used by witnesses and counterexamples -/

/-- A 64-character owner-node component. -/
def ownerA : String := String.mk (List.replicate 64 'a')

/-- A valid 65-character stream address owned by `ownerA`. -/
def addrX : String := ownerA ++ "b"

/-- A playback request path carrying `addrX`. -/
def pathX : String := "/stream/" ++ addrX

/-- A second, distinct 64-character node identifier. -/
def ownerC : String := String.mk (List.replicate 64 'c')

/-- A playback environment with no local stream, no existing muxer, a
successful subscribe, and a never-ready playlist with exact 2s iterations. -/
def envNeverReady : HlsPlayEnv :=
  { selfNode := ownerC
    hasNetworkStream := false
    existingMuxer := none
    newBufferId := "buf"
    subscribeResult := none
    ready := fun _ => false
    overhead := fun _ => 0 }

/-! ## C1 -/

/-- C1: for an HLS playback request whose parsed address passes the validity
guard and for which no `NetworkStream` exists locally, if the owner-node
component differs from the self address the handler calls
`Forwarder.Stream(addr, HLS)` exactly once and continues with the buffer
phase (it does not fail on that ground); if the owner-node component equals
the self address it fails with the `ErrNotFound` sentinel without invoking
the Forwarder. -/
theorem c1_hls_forward_or_notfound (reqPath : String) (env : HlsPlayEnv)
    (hid : parseStreamID reqPath ≠ "")
    (hloc : (splitComponents (parseStreamID reqPath)).2 ≠ "")
    (habs : env.hasNetworkStream = false) :
    (env.selfNode ≠ (splitComponents (parseStreamID reqPath)).1 →
      handleHLSPlay reqPath env =
        ((bufferPhase env (parseStreamID reqPath)).1,
          .getNetworkStream (parseStreamID reqPath) ::
            .forwardStream (parseStreamID reqPath) .hls ::
            (bufferPhase env (parseStreamID reqPath)).2) ∧
      (handleHLSPlay reqPath env).2.count
        (Effect.forwardStream (parseStreamID reqPath) .hls) = 1)
    ∧ (env.selfNode = (splitComponents (parseStreamID reqPath)).1 →
      handleHLSPlay reqPath env =
        (.error .notFound, [.getNetworkStream (parseStreamID reqPath)])) := by
  have hcond : ¬ (parseStreamID reqPath = "" ∨
      (splitComponents (parseStreamID reqPath)).2 = "") := by
    push_neg
    exact ⟨hid, hloc⟩
  constructor
  · intro hne
    have heq : handleHLSPlay reqPath env =
        ((bufferPhase env (parseStreamID reqPath)).1,
          .getNetworkStream (parseStreamID reqPath) ::
            .forwardStream (parseStreamID reqPath) .hls ::
            (bufferPhase env (parseStreamID reqPath)).2) := by
      simp only [handleHLSPlay]
      rw [if_neg hcond, if_pos ⟨habs, hne⟩]
    refine ⟨heq, ?_⟩
    rw [heq]
    rcases bufferPhase_effects env (parseStreamID reqPath) with h | h | h | h <;>
      simp [h, List.count_cons]
  · intro hself
    simp only [handleHLSPlay]
    rw [if_neg hcond, if_neg (by simp [hself]), if_pos ⟨habs, hself⟩]

/-- C1 witness: concrete evaluation of the theorem's hypotheses at `pathX`
with a foreign self node. -/
theorem c1_hls_forward_or_notfound_witness :
    (parseStreamID pathX ≠ "" ∧ (splitComponents (parseStreamID pathX)).2 ≠ "" ∧
      envNeverReady.hasNetworkStream = false) ∧
    ((envNeverReady.selfNode ≠ (splitComponents (parseStreamID pathX)).1 →
      handleHLSPlay pathX envNeverReady =
        ((bufferPhase envNeverReady (parseStreamID pathX)).1,
          .getNetworkStream (parseStreamID pathX) ::
            .forwardStream (parseStreamID pathX) .hls ::
            (bufferPhase envNeverReady (parseStreamID pathX)).2) ∧
      (handleHLSPlay pathX envNeverReady).2.count
        (Effect.forwardStream (parseStreamID pathX) .hls) = 1)
    ∧ (envNeverReady.selfNode = (splitComponents (parseStreamID pathX)).1 →
      handleHLSPlay pathX envNeverReady =
        (.error .notFound, [.getNetworkStream (parseStreamID pathX)]))) :=
  ⟨⟨by decide, by decide, rfl⟩,
    c1_hls_forward_or_notfound pathX envNeverReady (by decide) (by decide) rfl⟩

/-! ## C5 -/

/-- C5 counterexample: on the path "/abc" (no "/stream/" anchor, so the
parsed address is empty) the handler fails with the ad-hoc
"Stream Not Found" error, which is a different error value than the
`ErrNotFound` sentinel named by the claim; the effect trace is empty. -/
theorem c5_counterexample :
    (handleHLSPlay "/abc" envNeverReady).1 = .error .streamNotFound ∧
    (handleHLSPlay "/abc" envNeverReady).1 ≠ .error .notFound ∧
    (handleHLSPlay "/abc" envNeverReady).2 = [] := by
  refine ⟨rfl, ?_, rfl⟩
  have h : (handleHLSPlay "/abc" envNeverReady).1 = .error .streamNotFound := rfl
  rw [h]
  simp

/-- C5 amended: for every HLS playback request whose parsed address is empty,
or whose address has an empty owner-node component or an empty local-stream
component, the handler fails with the "Stream Not Found" error (not the
`ErrNotFound` sentinel) and performs no stream lookup, subscription, or
forwarding (empty effect trace). -/
theorem c5_invalid_address (reqPath : String) (env : HlsPlayEnv)
    (h : parseStreamID reqPath = "" ∨
      (splitComponents (parseStreamID reqPath)).1 = "" ∨
      (splitComponents (parseStreamID reqPath)).2 = "") :
    handleHLSPlay reqPath env = (.error .streamNotFound, []) := by
  have hguard : parseStreamID reqPath = "" ∨
      (splitComponents (parseStreamID reqPath)).2 = "" := by
    rcases h with h | h | h
    · exact Or.inl h
    · left
      rw [splitComponents] at h
      have : (parseStreamID reqPath).toList.take nodeIdLen = [] := by
        have := congrArg String.data h
        exact this
      rcases List.take_eq_nil_iff.mp this with h' | h'
      · exact absurd h' (by simp [nodeIdLen])
      · show String.mk (parseStreamID reqPath).data = String.mk []
        rw [show (parseStreamID reqPath).data = (parseStreamID reqPath).toList from rfl, h']
    · exact Or.inr h
  simp only [handleHLSPlay]
  rw [if_pos hguard]

/-- C5 witness: concrete evaluation at the path "/abc", which has no
"/stream/" anchor, so the parsed address is empty. -/
theorem c5_invalid_address_witness :
    (parseStreamID "/abc" = "" ∨
      (splitComponents (parseStreamID "/abc")).1 = "" ∨
      (splitComponents (parseStreamID "/abc")).2 = "") ∧
    handleHLSPlay "/abc" envNeverReady = (.error .streamNotFound, []) :=
  ⟨by decide, c5_invalid_address "/abc" envNeverReady (by decide)⟩

/-! ## C4 -/

/-- The HLS playback handler when the stream exists locally: proceed straight
to the buffer phase. -/
lemma handleHLSPlay_found (reqPath : String) (env : HlsPlayEnv)
    (hid : parseStreamID reqPath ≠ "")
    (hloc : (splitComponents (parseStreamID reqPath)).2 ≠ "")
    (hnet : env.hasNetworkStream = true) :
    handleHLSPlay reqPath env =
      ((bufferPhase env (parseStreamID reqPath)).1,
        .getNetworkStream (parseStreamID reqPath) ::
          (bufferPhase env (parseStreamID reqPath)).2) := by
  have hcond : ¬ (parseStreamID reqPath = "" ∨
      (splitComponents (parseStreamID reqPath)).2 = "") := by
    push_neg
    exact ⟨hid, hloc⟩
  simp only [handleHLSPlay]
  rw [if_neg hcond, if_neg (by simp [hnet]), if_neg (by simp [hnet])]

/-- The buffer phase when no muxer exists, subscribing succeeds, and polling
times out. -/
lemma bufferPhase_timeout_subscribe (env : HlsPlayEnv) (id : String)
    (hmux : env.existingMuxer = none) (hsub : env.subscribeResult = none)
    {m e : Nat} (hpoll : pollLoop env.ready env.overhead 0 0 = .timeout m e) :
    bufferPhase env id =
      (.error .notFound, [.getMuxer id "local", .subscribeHLS id "local"]) := by
  simp only [bufferPhase, pollPhase, hmux, hsub, hpoll]

/-- C4 counterexample: with exactly-2s loop iterations (the idealized timing
in which sleeps are exact and polls instantaneous) and a playlist that never
becomes ready, the readiness loop attempts six polls, not five, because
elapsed time is exactly 10000 ms after the fifth sleep and the exit test
`time.Since(startTime) > HLSWaitTime` is strict; the handler still returns
`ErrNotFound`. -/
theorem c4_counterexample :
    pollAttempts (pollLoop (fun _ => false) (fun _ => 0) 0 0) ≠ 5 ∧
    pollLoop (fun _ => false) (fun _ => 0) 0 0 = .timeout 6 12000 ∧
    handleHLSPlay pathX envNeverReady =
      (.error .notFound,
        [.getNetworkStream addrX, .forwardStream addrX .hls,
          .getMuxer addrX "local", .subscribeHLS addrX "local"]) := by
  refine ⟨?_, pollLoop_zero_overhead, ?_⟩
  · rw [pollLoop_zero_overhead]
    simp [pollAttempts]
  · have hparse : parseStreamID pathX = addrX := by decide
    have hpoll : pollLoop envNeverReady.ready envNeverReady.overhead 0 0
        = .timeout 6 12000 := by
      rw [show envNeverReady.ready = (fun _ => false) from rfl,
        show envNeverReady.overhead = (fun _ => 0) from rfl]
      exact pollLoop_zero_overhead
    have hbp : bufferPhase envNeverReady addrX =
        (.error .notFound, [.getMuxer addrX "local", .subscribeHLS addrX "local"]) :=
      bufferPhase_timeout_subscribe envNeverReady addrX rfl rfl hpoll
    simp only [handleHLSPlay, hparse]
    rw [if_neg (by decide), if_pos ⟨rfl, by decide⟩, hbp]

/-- C4 amended: for a playback request that reaches the readiness-polling
phase, (a) if the playlist never becomes ready and every loop iteration takes
strictly more than the 2s sleep but at most 2.5s, the handler returns
`ErrNotFound` once the elapsed wait exceeds the 10s ceiling, having attempted
exactly 10s/2s = 5 polls (in the idealized exactly-2s-per-iteration limit the
strict exit test admits a sixth poll, see the counterexample); and (b) on the
first poll attempt that succeeds (reached when it is among the first five and
iterations take at most 2.5s), the handler refreshes the activity-map
timestamp for the address and returns the buffer handle. -/
theorem c4_poll_timeout_and_refresh (reqPath : String) (env : HlsPlayEnv) (b : String)
    (hid : parseStreamID reqPath ≠ "")
    (hloc : (splitComponents (parseStreamID reqPath)).2 ≠ "")
    (hnet : env.hasNetworkStream = true)
    (hmux : env.existingMuxer = some b) :
    ((∀ k, env.ready k = false) →
      (∀ k, 0 < env.overhead k ∧ env.overhead k ≤ 500) →
      ∃ e, pollLoop env.ready env.overhead 0 0 = .timeout 5 e ∧ HLSWaitTime < e ∧
        handleHLSPlay reqPath env =
          (.error .notFound,
            [.getNetworkStream (parseStreamID reqPath),
              .getMuxer (parseStreamID reqPath) "local"]))
    ∧ (∀ n, n ≤ 4 → (∀ k, k < n → env.ready k = false) → env.ready n = true →
        (∀ k, env.overhead k ≤ 500) →
      ∃ e, pollLoop env.ready env.overhead 0 0 = .ready n e ∧
        handleHLSPlay reqPath env =
          (.ok b,
            [.getNetworkStream (parseStreamID reqPath),
              .getMuxer (parseStreamID reqPath) "local",
              .refreshTimer (parseStreamID reqPath)])) := by
  constructor
  · intro hr hd
    obtain ⟨e, he, hgt⟩ := pollLoop_timeout_five hr hd
    refine ⟨e, he, hgt, ?_⟩
    rw [handleHLSPlay_found reqPath env hid hloc hnet]
    simp only [bufferPhase, pollPhase, hmux, he]
  · intro n hn hb hready hd
    obtain ⟨e, he⟩ := pollLoop_ready_at hn hb hready hd
    refine ⟨e, he, ?_⟩
    rw [handleHLSPlay_found reqPath env hid hloc hnet]
    simp only [bufferPhase, pollPhase, hmux, he]

/-- A playback environment with a locally registered stream and an existing
muxer for the address. -/
def envMux : HlsPlayEnv :=
  { selfNode := ownerC
    hasNetworkStream := true
    existingMuxer := some "buf"
    newBufferId := "buf"
    subscribeResult := none
    ready := fun _ => false
    overhead := fun _ => 100 }

/-- C4 witness: concrete evaluation of the amended theorem's hypotheses at
`pathX` in an environment with an existing muxer. -/
theorem c4_poll_timeout_and_refresh_witness :
    (parseStreamID pathX ≠ "" ∧ (splitComponents (parseStreamID pathX)).2 ≠ "" ∧
      envMux.hasNetworkStream = true ∧ envMux.existingMuxer = some "buf") ∧
    (((∀ k, envMux.ready k = false) →
      (∀ k, 0 < envMux.overhead k ∧ envMux.overhead k ≤ 500) →
      ∃ e, pollLoop envMux.ready envMux.overhead 0 0 = .timeout 5 e ∧ HLSWaitTime < e ∧
        handleHLSPlay pathX envMux =
          (.error .notFound,
            [.getNetworkStream (parseStreamID pathX),
              .getMuxer (parseStreamID pathX) "local"]))
    ∧ (∀ n, n ≤ 4 → (∀ k, k < n → envMux.ready k = false) → envMux.ready n = true →
        (∀ k, envMux.overhead k ≤ 500) →
      ∃ e, pollLoop envMux.ready envMux.overhead 0 0 = .ready n e ∧
        handleHLSPlay pathX envMux =
          (.ok "buf",
            [.getNetworkStream (parseStreamID pathX),
              .getMuxer (parseStreamID pathX) "local",
              .refreshTimer (parseStreamID pathX)]))) :=
  ⟨⟨by decide, by decide, rfl, rfl⟩,
    c4_poll_timeout_and_refresh pathX envMux "buf" (by decide) (by decide) rfl rfl⟩

/-! ## C2 -/

/-- A sweep issues no unsubscribe or stop-stream call for an address that has
no entry. -/
lemma sweepStep_count_zero (limit now : Nat) {sid : String}
    {entries : List (String × Nat)} (h : sid ∉ entries.map Prod.fst) :
    (sweepStep limit now entries).1.count (Effect.unsubscribeHLS sid "local") = 0 ∧
    (sweepStep limit now entries).1.count (Effect.stopStream sid .hls) = 0 := by
  induction entries with
  | nil => simp [sweepStep]
  | cons p rest ih =>
    obtain ⟨a, u⟩ := p
    simp only [List.map_cons, List.mem_cons, not_or] at h
    obtain ⟨hne, hrest⟩ := h
    have hr := ih hrest
    simp only [sweepStep]
    split
    · constructor
      · simp only [List.count_cons, hr.1]
        simp [Ne.symm hne]
      · simp only [List.count_cons, hr.2]
        simp [Ne.symm hne]
    · exact hr

/-- The entries surviving a sweep form a sublist of the original entries. -/
lemma sweepStep_keep_sublist (limit now : Nat) (entries : List (String × Nat)) :
    (sweepStep limit now entries).2.Sublist entries := by
  induction entries with
  | nil => simp [sweepStep]
  | cons p rest ih =>
    obtain ⟨a, u⟩ := p
    simp only [sweepStep]
    split
    · exact ih.cons _
    · exact ih.cons₂ _

/-- C2: in one reaper sweep over the activity map (keys distinct, as in a Go
map), every entry whose last-activity age exceeds the 20s idle limit is
evicted with exactly one `UnsubscribeToHLSStream(addr, "local")` call and
exactly one `Forwarder.StopStream(addr, HLS)` call and its entry removed,
while every entry within the limit is retained with neither call issued for
it. -/
theorem c2_reaper_sweep (now : Nat) (entries : List (String × Nat)) (sid : String) (t : Nat)
    (hnd : (entries.map Prod.fst).Nodup) (hmem : (sid, t) ∈ entries) :
    (HLSUnsubscribeWaitLimit < now - t →
      (sweepStep HLSUnsubscribeWaitLimit now entries).1.count
          (Effect.unsubscribeHLS sid "local") = 1 ∧
      (sweepStep HLSUnsubscribeWaitLimit now entries).1.count
          (Effect.stopStream sid .hls) = 1 ∧
      sid ∉ (sweepStep HLSUnsubscribeWaitLimit now entries).2.map Prod.fst)
    ∧ (¬ HLSUnsubscribeWaitLimit < now - t →
      (sweepStep HLSUnsubscribeWaitLimit now entries).1.count
          (Effect.unsubscribeHLS sid "local") = 0 ∧
      (sweepStep HLSUnsubscribeWaitLimit now entries).1.count
          (Effect.stopStream sid .hls) = 0 ∧
      (sid, t) ∈ (sweepStep HLSUnsubscribeWaitLimit now entries).2) := by
  induction entries with
  | nil => simp at hmem
  | cons p rest ih =>
    obtain ⟨a, u⟩ := p
    simp only [List.map_cons, List.nodup_cons] at hnd
    obtain ⟨hna, hndr⟩ := hnd
    rcases List.mem_cons.mp hmem with heq | hmemr
    · rw [Prod.mk.injEq] at heq
      obtain ⟨rfl, rfl⟩ := heq
      have hz := sweepStep_count_zero HLSUnsubscribeWaitLimit now hna
      constructor
      · intro hst
        simp only [sweepStep]
        rw [if_pos hst]
        refine ⟨?_, ?_, ?_⟩
        · simp [List.count_cons, hz.1]
        · simp [List.count_cons, hz.2]
        · intro hk
          exact hna (List.map_subset Prod.fst
            (sweepStep_keep_sublist HLSUnsubscribeWaitLimit now rest).subset hk)
      · intro hfr
        simp only [sweepStep]
        rw [if_neg hfr]
        exact ⟨hz.1, hz.2, List.mem_cons_self _ _⟩
    · have hsidk : sid ∈ rest.map Prod.fst := List.mem_map_of_mem Prod.fst hmemr
      have hane : a ≠ sid := fun h => hna (h ▸ hsidk)
      have ih' := ih hndr hmemr
      constructor
      · intro hst
        obtain ⟨h1, h2, h3⟩ := ih'.1 hst
        simp only [sweepStep]
        split
        · refine ⟨?_, ?_, h3⟩
          · simp only [List.count_cons, h1]
            simp [hane]
          · simp only [List.count_cons, h2]
            simp [hane]
        · refine ⟨h1, h2, ?_⟩
          simp only [List.map_cons, List.mem_cons, not_or]
          exact ⟨fun h => hane h.symm, h3⟩
      · intro hfr
        obtain ⟨h1, h2, h3⟩ := ih'.2 hfr
        simp only [sweepStep]
        split
        · refine ⟨?_, ?_, h3⟩
          · simp only [List.count_cons, h1]
            simp [hane]
          · simp only [List.count_cons, h2]
            simp [hane]
        · exact ⟨h1, h2, List.mem_cons_of_mem _ h3⟩

/-- C2 witness: a two-entry map at time 30000 ms, one entry 30s old (stale)
and one 0s old (fresh), instantiating both directions of the theorem. -/
theorem c2_reaper_sweep_witness :
    ((([("stale", 0), ("fresh", 30000)] : List (String × Nat)).map Prod.fst).Nodup ∧
      (("stale", 0) : String × Nat) ∈ [("stale", 0), ("fresh", 30000)] ∧
      HLSUnsubscribeWaitLimit < 30000 - 0) ∧
    (sweepStep HLSUnsubscribeWaitLimit 30000 [("stale", 0), ("fresh", 30000)]).1.count
        (Effect.unsubscribeHLS "stale" "local") = 1 ∧
    (sweepStep HLSUnsubscribeWaitLimit 30000 [("stale", 0), ("fresh", 30000)]).1.count
        (Effect.stopStream "stale" .hls) = 1 ∧
    "stale" ∉ (sweepStep HLSUnsubscribeWaitLimit 30000
        [("stale", 0), ("fresh", 30000)]).2.map Prod.fst :=
  ⟨⟨by decide, by decide, by decide⟩,
    (c2_reaper_sweep 30000 [("stale", 0), ("fresh", 30000)] "stale" 0
      (by decide) (by decide)).1 (by decide)⟩

/-! ## C8 -/

/-- C8 counterexample: the claim applies `Parse` to the bare string form of
the address, but `parseStreamID` only extracts IDs from paths containing the
"/stream/" anchor, so for the made address "ab" parsing yields the empty
string and splitting it does not recover ("a", "b"). -/
theorem c8_counterexample :
    splitComponents (parseStreamID (makeStreamID "a" "b")) ≠ ("a", "b") ∧
    parseStreamID (makeStreamID "a" "b") = "" := by
  constructor
  · decide
  · decide

/-- C8 amended: for every address made from an owner-node component of the
node-identifier width (64 characters) and a local-stream component, both
alphanumeric, parsing a request path formed by prefixing "/stream/" to the
address's string form and splitting the result recovers exactly the original
components. -/
theorem c8_roundtrip (owner localId : String)
    (hlen : owner.length = nodeIdLen)
    (halo : ∀ c ∈ owner.toList, goAlnum c = true)
    (hall : ∀ c ∈ localId.toList, goAlnum c = true) :
    splitComponents (parseStreamID ("/stream/" ++ makeStreamID owner localId)) =
      (owner, localId) := by
  have h : ∀ c ∈ (makeStreamID owner localId).toList, goAlnum c = true := by
    intro c hc
    rw [makeStreamID] at hc
    rw [show (owner ++ localId).toList = owner.data ++ localId.data from
      String.data_append owner localId] at hc
    rcases List.mem_append.mp hc with hc | hc
    · exact halo c hc
    · exact hall c hc
  rw [parseStreamID_marker _ h, splitComponents_make owner localId hlen]

/-- C8 witness: concrete evaluation at the 64-character owner `ownerA` and
the local component "b". -/
theorem c8_roundtrip_witness :
    (ownerA.length = nodeIdLen ∧ (∀ c ∈ ownerA.toList, goAlnum c = true) ∧
      (∀ c ∈ ("b" : String).toList, goAlnum c = true)) ∧
    splitComponents (parseStreamID ("/stream/" ++ makeStreamID ownerA "b")) =
      (ownerA, "b") :=
  ⟨⟨by decide, by decide, by decide⟩,
    c8_roundtrip ownerA "b" (by decide) (by decide) (by decide)⟩

/-! ## C6 -/

/-- C6: a publish resolution whose path-supplied raw address has an
owner-node component different from the self address returns
`ErrStreamPublish`, leaves the registry unchanged, and performs no calls at
all (in particular creates neither a raw nor a packaged stream). -/
theorem c6_publish_reject_foreign (env : PublishEnv) (reqPath qHls : String)
    (reg : List (String × StreamFormat))
    (hp : parseStreamID reqPath ≠ "")
    (hown : (splitComponents (parseStreamID reqPath)).1 ≠ env.self) :
    getStream env reqPath qHls reg = (.error .publish, reg, []) := by
  simp only [getStream]
  rw [if_neg hp, if_pos hown]

/-- C6 witness: concrete evaluation for a request path carrying `addrX`
(owned by `ownerA`) at a node whose self address is `ownerC`. -/
theorem c6_publish_reject_foreign_witness :
    (parseStreamID pathX ≠ "" ∧
      (splitComponents (parseStreamID pathX)).1 ≠ ownerC) ∧
    getStream ⟨ownerC, "r1", "r2"⟩ pathX "" [] = (.error .publish, [], []) :=
  ⟨⟨by decide, by decide⟩,
    c6_publish_reject_foreign ⟨ownerC, "r1", "r2"⟩ pathX "" [] (by decide) (by decide)⟩

/-! ## C7 -/

/-- C7: two successive publish resolutions supplying the same locally-owned
raw address in the path and no `hlsStrmID` query parameter.  The first call
creates the raw RTMP stream at that address; the second call finds it in the
registry and issues no `AddNewNetworkStream` for the raw address (its effect
trace contains no `addNew` of the raw address at all); each call creates a
fresh packaged HLS stream at its minted address, and since the minted tokens
differ the two packaged streams are distinct entries of the final
registry. -/
theorem c7_publish_reuse_raw_fresh_packaged
    (env1 env2 : PublishEnv) (reqPath : String)
    (reg0 : List (String × StreamFormat))
    (hself : env2.self = env1.self)
    (hp : parseStreamID reqPath ≠ "")
    (hpown : (splitComponents (parseStreamID reqPath)).1 = env1.self)
    (hnotin : regFind reg0 (parseStreamID reqPath) = none)
    (h1own : (splitComponents (makeStreamID env1.self env1.rand2)).1 = env1.self)
    (h2own : (splitComponents (makeStreamID env2.self env2.rand2)).1 = env2.self)
    (hrand : env1.rand2 ≠ env2.rand2)
    (h1nep : makeStreamID env1.self env1.rand2 ≠ parseStreamID reqPath) :
    getStream env1 reqPath "" reg0 =
      (.ok (parseStreamID reqPath, makeStreamID env1.self env1.rand2),
        (makeStreamID env1.self env1.rand2, .hls) ::
          (parseStreamID reqPath, .rtmp) :: reg0,
        [.getNetworkStream (parseStreamID reqPath),
          .addNew (parseStreamID reqPath) .rtmp,
          .addNew (makeStreamID env1.self env1.rand2) .hls,
          .logBroadcast (parseStreamID reqPath),
          .logBroadcast (makeStreamID env1.self env1.rand2)]) ∧
    getStream env2 reqPath ""
        ((makeStreamID env1.self env1.rand2, .hls) ::
          (parseStreamID reqPath, .rtmp) :: reg0) =
      (.ok (parseStreamID reqPath, makeStreamID env2.self env2.rand2),
        (makeStreamID env2.self env2.rand2, .hls) ::
          (makeStreamID env1.self env1.rand2, .hls) ::
          (parseStreamID reqPath, .rtmp) :: reg0,
        [.getNetworkStream (parseStreamID reqPath),
          .addNew (makeStreamID env2.self env2.rand2) .hls,
          .logBroadcast (parseStreamID reqPath),
          .logBroadcast (makeStreamID env2.self env2.rand2)]) ∧
    makeStreamID env1.self env1.rand2 ≠ makeStreamID env2.self env2.rand2 := by
  have hne12 : makeStreamID env1.self env1.rand2 ≠ makeStreamID env2.self env2.rand2 := by
    rw [hself]
    intro h
    apply hrand
    have hd := congrArg String.data h
    rw [makeStreamID, makeStreamID, String.data_append, String.data_append] at hd
    exact String.ext (List.append_cancel_left hd)
  refine ⟨?_, ?_, hne12⟩
  · simp only [getStream]
    rw [if_neg hp, if_neg (not_not_intro hpown), hnotin]
    simp only [Option.isSome_none, Bool.false_eq_true, if_false, if_true]
    rw [if_neg (not_not_intro h1own)]
    rfl
  · have hpown2 : (splitComponents (parseStreamID reqPath)).1 = env2.self := by
      rw [hself]
      exact hpown
    have hfind : regFind
        ((makeStreamID env1.self env1.rand2, StreamFormat.hls) ::
          (parseStreamID reqPath, StreamFormat.rtmp) :: reg0)
        (parseStreamID reqPath) = some .rtmp := by
      simp only [regFind]
      rw [if_neg h1nep]
      simp only [if_true]
    simp only [getStream]
    rw [if_neg hp, if_neg (not_not_intro hpown2), hfind]
    simp only [Option.isSome_some, if_true]
    rw [if_neg (not_not_intro h2own)]
    rfl

/-- C7 witness: concrete evaluation with the raw address `addrX` owned by
`ownerA` and distinct minted packaged tokens "y1" and "y2". -/
theorem c7_publish_reuse_raw_fresh_packaged_witness :
    ((⟨ownerA, "x2", "y2"⟩ : PublishEnv).self = (⟨ownerA, "x1", "y1"⟩ : PublishEnv).self ∧
      parseStreamID pathX ≠ "" ∧
      (splitComponents (parseStreamID pathX)).1 = ownerA ∧
      regFind [] (parseStreamID pathX) = none ∧
      (splitComponents (makeStreamID ownerA "y1")).1 = ownerA ∧
      (splitComponents (makeStreamID ownerA "y2")).1 = ownerA ∧
      ("y1" : String) ≠ "y2" ∧
      makeStreamID ownerA "y1" ≠ parseStreamID pathX) ∧
    (getStream ⟨ownerA, "x1", "y1"⟩ pathX "" [] =
      (.ok (parseStreamID pathX, makeStreamID ownerA "y1"),
        (makeStreamID ownerA "y1", .hls) :: (parseStreamID pathX, .rtmp) :: [],
        [.getNetworkStream (parseStreamID pathX),
          .addNew (parseStreamID pathX) .rtmp,
          .addNew (makeStreamID ownerA "y1") .hls,
          .logBroadcast (parseStreamID pathX),
          .logBroadcast (makeStreamID ownerA "y1")]) ∧
    getStream ⟨ownerA, "x2", "y2"⟩ pathX ""
        ((makeStreamID ownerA "y1", .hls) :: (parseStreamID pathX, .rtmp) :: []) =
      (.ok (parseStreamID pathX, makeStreamID ownerA "y2"),
        (makeStreamID ownerA "y2", .hls) ::
          (makeStreamID ownerA "y1", .hls) :: (parseStreamID pathX, .rtmp) :: [],
        [.getNetworkStream (parseStreamID pathX),
          .addNew (makeStreamID ownerA "y2") .hls,
          .logBroadcast (parseStreamID pathX),
          .logBroadcast (makeStreamID ownerA "y2")]) ∧
    makeStreamID ownerA "y1" ≠ makeStreamID ownerA "y2") :=
  ⟨⟨rfl, by decide, by decide, rfl, by decide, by decide, by decide, by decide⟩,
    c7_publish_reuse_raw_fresh_packaged ⟨ownerA, "x1", "y1"⟩ ⟨ownerA, "x2", "y2"⟩
      pathX [] rfl (by decide) (by decide) rfl (by decide) (by decide)
      (by decide) (by decide)⟩

/-! ## C9 -/

/-- C9: for an RTMP playback request whose subscription succeeds, whatever
error the copy loop terminates with (including a nil error), the handler
issues exactly one `UnsubscribeToRTMPStream` for the queue's subscriber ID
and exactly one `Forwarder.StopStream(addr, RTMP)` (whose own outcome is
discarded: the returned result does not depend on it), and returns the copy
loop's terminal error as its own result. -/
theorem c9_rtmp_teardown (reqPath : String) (env : RtmpPlayEnv)
    (hid : parseStreamID reqPath ≠ "")
    (hsub : env.subscribeResult = none) :
    (handleRTMPPlay reqPath env).1 = .copyDone env.copyResult ∧
    (handleRTMPPlay reqPath env).2.count
      (Effect.unsubscribeRTMP (parseStreamID reqPath) env.subId) = 1 ∧
    (handleRTMPPlay reqPath env).2.count
      (Effect.stopStream (parseStreamID reqPath) .rtmp) = 1 := by
  cases hnet : env.hasNetworkStream <;>
    simp [handleRTMPPlay, hid, hsub, hnet, List.count_cons]

/-- C9 witness: concrete evaluation at `pathX` with a local stream, a
successful subscription, and a copy loop terminating with the error
"EOF". -/
theorem c9_rtmp_teardown_witness :
    (parseStreamID pathX ≠ "" ∧
      (⟨true, "sub0", none, some "EOF"⟩ : RtmpPlayEnv).subscribeResult = none) ∧
    (handleRTMPPlay pathX ⟨true, "sub0", none, some "EOF"⟩).1 = .copyDone (some "EOF") ∧
    (handleRTMPPlay pathX ⟨true, "sub0", none, some "EOF"⟩).2.count
      (Effect.unsubscribeRTMP (parseStreamID pathX) "sub0") = 1 ∧
    (handleRTMPPlay pathX ⟨true, "sub0", none, some "EOF"⟩).2.count
      (Effect.stopStream (parseStreamID pathX) .rtmp) = 1 :=
  ⟨⟨by decide, rfl⟩,
    c9_rtmp_teardown pathX ⟨true, "sub0", none, some "EOF"⟩ (by decide) rfl⟩

/-! ## C10 -/

/-- C10: the `/createStream` handler's response is a function of the stream
component alone — the error returned by `AddNewNetworkStream` is discarded —
and the stream is dereferenced unconditionally: the handler avoids the nil
dereference (a defined, `some` response) exactly when the returned stream is
non-nil, with no error branch for a failed creation. -/
theorem c10_create_stream_ignores_error (s : Option String) (e e' : Option String) :
    createStreamHandler (s, e) = createStreamHandler (s, e') ∧
    ((createStreamHandler (s, e)).isSome ↔ s.isSome) := by
  constructor
  · rfl
  · cases s <;> simp [createStreamHandler]

/-! ## C3: invariant machinery -/

/-- Conditional characterization of the buffer-phase effect traces. -/
lemma bufferPhase_spec (env : HlsPlayEnv) (id : String) :
    (env.existingMuxer ≠ none ∧
      ((bufferPhase env id).2 = [.getMuxer id "local"] ∨
        (bufferPhase env id).2 = [.getMuxer id "local", .refreshTimer id]))
    ∨ (env.existingMuxer = none ∧ env.subscribeResult ≠ none ∧
      (bufferPhase env id).2 = [.getMuxer id "local", .subscribeHLS id "local"])
    ∨ (env.existingMuxer = none ∧ env.subscribeResult = none ∧
      ((bufferPhase env id).2 = [.getMuxer id "local", .subscribeHLS id "local"] ∨
        (bufferPhase env id).2 =
          [.getMuxer id "local", .subscribeHLS id "local", .refreshTimer id])) := by
  unfold bufferPhase pollPhase
  cases hm : env.existingMuxer with
  | some b => cases pollLoop env.ready env.overhead 0 0 <;> simp
  | none =>
    cases hs : env.subscribeResult with
    | some e => simp
    | none => cases pollLoop env.ready env.overhead 0 0 <;> simp

/-- The four possible effect-trace shapes of the HLS playback handler. -/
lemma handleHLSPlay_effs_spec (reqPath : String) (env : HlsPlayEnv) :
    (handleHLSPlay reqPath env).2 = [] ∨
    (handleHLSPlay reqPath env).2 = [.getNetworkStream (parseStreamID reqPath)] ∨
    (handleHLSPlay reqPath env).2 =
      .getNetworkStream (parseStreamID reqPath) ::
        .forwardStream (parseStreamID reqPath) .hls ::
        (bufferPhase env (parseStreamID reqPath)).2 ∨
    (handleHLSPlay reqPath env).2 =
      .getNetworkStream (parseStreamID reqPath) ::
        (bufferPhase env (parseStreamID reqPath)).2 := by
  simp only [handleHLSPlay]
  split
  · left
    rfl
  · split
    · right; right; left
      rfl
    · split
      · right; left
        rfl
      · right; right; right
        rfl

/-- A timer refresh only happens for the parsed address and only when either
the muxer already existed or the handler subscribed successfully. -/
lemma handler_refresh_invariant (reqPath : String) (env : HlsPlayEnv)
    (h : Effect.refreshTimer (parseStreamID reqPath) ∈ (handleHLSPlay reqPath env).2) :
    env.existingMuxer ≠ none ∨
      (env.subscribeResult = none ∧
        Effect.subscribeHLS (parseStreamID reqPath) "local" ∈
          (handleHLSPlay reqPath env).2) := by
  rcases handleHLSPlay_effs_spec reqPath env with he | he | he | he <;> rw [he] at h ⊢
  · simp at h
  · simp at h
  · have hb : Effect.refreshTimer (parseStreamID reqPath) ∈
        (bufferPhase env (parseStreamID reqPath)).2 := by
      simp only [List.mem_cons] at h
      rcases h with h | h | h
      · exact absurd h (by simp)
      · exact absurd h (by simp)
      · exact h
    rcases bufferPhase_spec env (parseStreamID reqPath) with ⟨hm, _⟩ | ⟨_, _, hsh⟩ |
        ⟨_, hs, hsh | hsh⟩
    · exact Or.inl hm
    · rw [hsh] at hb
      exact absurd hb (by simp)
    · rw [hsh] at hb
      exact absurd hb (by simp)
    · refine Or.inr ⟨hs, ?_⟩
      rw [hsh]
      simp
  · have hb : Effect.refreshTimer (parseStreamID reqPath) ∈
        (bufferPhase env (parseStreamID reqPath)).2 := by
      simp only [List.mem_cons] at h
      rcases h with h | h
      · exact absurd h (by simp)
      · exact h
    rcases bufferPhase_spec env (parseStreamID reqPath) with ⟨hm, _⟩ | ⟨_, _, hsh⟩ |
        ⟨_, hs, hsh | hsh⟩
    · exact Or.inl hm
    · rw [hsh] at hb
      exact absurd hb (by simp)
    · rw [hsh] at hb
      exact absurd hb (by simp)
    · refine Or.inr ⟨hs, ?_⟩
      rw [hsh]
      simp

/-- Keys of the filtered map equal the filtered keys. -/
lemma keys_filter_ne (l : List (String × Nat)) (id : String) :
    (l.filter (fun p => decide (p.1 ≠ id))).map Prod.fst
      = (l.map Prod.fst).filter (fun a => decide (a ≠ id)) := by
  induction l with
  | nil => rfl
  | cons p rest ih =>
    simp only [List.map_cons, List.filter_cons, ne_eq, decide_not] at ih ⊢
    by_cases h : p.1 = id
    · simp [h, ih]
    · simp [h, ih]

/-- Writing `timer[id] = now` (map assignment) keeps the keys distinct. -/
lemma nodup_insertTimer {l : List (String × Nat)} (h : (l.map Prod.fst).Nodup)
    (id : String) (now : Nat) :
    (((id, now) :: l.filter (fun p => decide (p.1 ≠ id))).map Prod.fst).Nodup := by
  rw [List.map_cons, keys_filter_ne]
  refine List.nodup_cons.mpr ⟨?_, h.filter _⟩
  intro hmem
  have h2 := (List.mem_filter.mp hmem).2
  simp at h2

/-- A key of the map after assignment is the written key or an old key. -/
lemma mem_keys_insertTimer {l : List (String × Nat)} {id a : String} {now : Nat}
    (h : a ∈ (((id, now) :: l.filter (fun p => decide (p.1 ≠ id))).map Prod.fst)) :
    a = id ∨ a ∈ l.map Prod.fst := by
  rw [List.map_cons, keys_filter_ne] at h
  rcases List.mem_cons.mp h with h | h
  · exact Or.inl h
  · exact Or.inr (List.mem_of_mem_filter h)

/-- In a map with distinct keys, two entries for the same key carry the same
value. -/
lemma keys_nodup_eq {l : List (String × Nat)} (h : (l.map Prod.fst).Nodup)
    {a : String} {t u : Nat} (h1 : (a, t) ∈ l) (h2 : (a, u) ∈ l) : t = u := by
  induction l with
  | nil => simp at h1
  | cons p rest ih =>
    simp only [List.map_cons, List.nodup_cons] at h
    rcases List.mem_cons.mp h1 with e1 | m1 <;> rcases List.mem_cons.mp h2 with e2 | m2
    · exact (Prod.mk.injEq .. |>.mp (e1.trans e2.symm)).2
    · have ha : a = p.1 := congrArg Prod.fst e1
      exact absurd (ha ▸ List.mem_map_of_mem Prod.fst m2) h.1
    · have ha : a = p.1 := congrArg Prod.fst e2
      exact absurd (ha ▸ List.mem_map_of_mem Prod.fst m1) h.1
    · exact ih h.2 m1 m2

/-- Every unsubscribe issued by a sweep corresponds to a stale entry. -/
lemma sweepStep_unsub_mem {limit now : Nat} {entries : List (String × Nat)}
    {a sub : String}
    (h : Effect.unsubscribeHLS a sub ∈ (sweepStep limit now entries).1) :
    ∃ u, (a, u) ∈ entries ∧ limit < now - u := by
  induction entries with
  | nil => simp [sweepStep] at h
  | cons p rest ih =>
    obtain ⟨b, u⟩ := p
    simp only [sweepStep] at h
    split at h
    · simp only [List.mem_cons] at h
      rcases h with h | h | h
      · have hb : a = b := ((Effect.unsubscribeHLS.injEq ..).mp h).1
        exact ⟨u, by rw [hb]; exact List.mem_cons_self _ _, by assumption⟩
      · exact absurd h (by simp)
      · obtain ⟨u', hu', hs'⟩ := ih h
        exact ⟨u', List.mem_cons_of_mem _ hu', hs'⟩
    · obtain ⟨u', hu', hs'⟩ := ih h
      exact ⟨u', List.mem_cons_of_mem _ hu', hs'⟩

/-- Every entry surviving a sweep is an original entry and is fresh. -/
lemma sweepStep_keep_fresh {limit now : Nat} {entries : List (String × Nat)}
    {x : String × Nat} (h : x ∈ (sweepStep limit now entries).2) :
    x ∈ entries ∧ ¬ limit < now - x.2 := by
  induction entries with
  | nil => simp [sweepStep] at h
  | cons p rest ih =>
    obtain ⟨b, u⟩ := p
    simp only [sweepStep] at h
    split at h
    · obtain ⟨hx, hf⟩ := ih h
      exact ⟨List.mem_cons_of_mem _ hx, hf⟩
    · rcases List.mem_cons.mp h with h | h
      · exact ⟨List.mem_cons.mpr (Or.inl h), by rw [h]; assumption⟩
      · obtain ⟨hx, hf⟩ := ih h
        exact ⟨List.mem_cons_of_mem _ hx, hf⟩

/-- The invariant on the HLS subsystem state: the activity map has distinct
keys, and every key of the activity map has an active local buffer
subscription. -/
def SysInv (s : SysState) : Prop :=
  (s.timer.map Prod.fst).Nodup ∧ ∀ a ∈ s.timer.map Prod.fst, a ∈ s.subs

/-- A playback event preserves the invariant. -/
lemma sysInv_applyPlay (self : String) (s : SysState) (ev : PlayEv) (h : SysInv s) :
    SysInv (applyPlay self s ev) := by
  obtain ⟨hnd, hks⟩ := h
  have hsubs : (applyPlay self s ev).subs =
      (if Effect.subscribeHLS (parseStreamID ev.reqPath) "local" ∈
            (handleHLSPlay ev.reqPath (playEnvOf self s ev)).2 ∧ ev.subOk = true
        then parseStreamID ev.reqPath :: s.subs else s.subs) := rfl
  have htimer : (applyPlay self s ev).timer =
      (if Effect.refreshTimer (parseStreamID ev.reqPath) ∈
            (handleHLSPlay ev.reqPath (playEnvOf self s ev)).2
        then (parseStreamID ev.reqPath, ev.now) ::
          s.timer.filter (fun p => decide (p.1 ≠ parseStreamID ev.reqPath))
        else s.timer) := rfl
  have hmono : ∀ a, a ∈ s.subs → a ∈ (applyPlay self s ev).subs := by
    intro a ha
    rw [hsubs]
    split
    · exact List.mem_cons_of_mem _ ha
    · exact ha
  unfold SysInv
  refine ⟨?_, ?_⟩
  · rw [htimer]
    split
    · exact nodup_insertTimer hnd _ _
    · exact hnd
  · intro a ha
    rw [htimer] at ha
    by_cases hc2 : Effect.refreshTimer (parseStreamID ev.reqPath) ∈
        (handleHLSPlay ev.reqPath (playEnvOf self s ev)).2
    · rw [if_pos hc2] at ha
      rcases mem_keys_insertTimer ha with heq | hold
      · subst heq
        rcases handler_refresh_invariant ev.reqPath (playEnvOf self s ev) hc2 with
          hm | ⟨hs0, hsub⟩
        · have hin : parseStreamID ev.reqPath ∈ s.subs := by
            by_contra hn
            exact hm (by
              show (if parseStreamID ev.reqPath ∈ s.subs
                then some (parseStreamID ev.reqPath) else none) = none
              rw [if_neg hn])
          exact hmono _ hin
        · have hok : ev.subOk = true := by
            cases hcase : ev.subOk
            · exfalso
              have hsome : (playEnvOf self s ev).subscribeResult
                  = some MSErr.subscribeFail := by
                show (if ev.subOk = true then none else some MSErr.subscribeFail) = _
                rw [hcase]
                simp
              rw [hs0] at hsome
              exact absurd hsome (by simp)
            · rfl
          rw [hsubs, if_pos ⟨hsub, hok⟩]
          exact List.mem_cons_self _ _
      · exact hmono _ (hks _ hold)
    · rw [if_neg hc2] at ha
      exact hmono _ (hks _ ha)

/-- A reaper sweep preserves the invariant. -/
lemma sysInv_applyReap (limit now : Nat) (s : SysState) (h : SysInv s) :
    SysInv (applyReap limit now s) := by
  obtain ⟨hnd, hks⟩ := h
  have htimer : (applyReap limit now s).timer = (sweepStep limit now s.timer).2 := rfl
  have hsubs : (applyReap limit now s).subs =
      s.subs.filter (fun a =>
        decide (Effect.unsubscribeHLS a "local" ∉ (sweepStep limit now s.timer).1)) := rfl
  unfold SysInv
  refine ⟨?_, ?_⟩
  · rw [htimer]
    exact ((sweepStep_keep_sublist limit now s.timer).map Prod.fst).nodup hnd
  · intro a ha
    rw [htimer] at ha
    rw [hsubs]
    obtain ⟨x, hmem, hxa⟩ := List.mem_map.mp ha
    have hx := sweepStep_keep_fresh hmem
    have hx1 : (a, x.2) ∈ s.timer := by
      rw [← hxa, Prod.mk.eta]
      exact hx.1
    refine List.mem_filter.mpr
      ⟨hks a (hxa ▸ List.mem_map_of_mem Prod.fst hx.1), ?_⟩
    rw [decide_eq_true_eq]
    intro habs
    obtain ⟨u, humem, hustale⟩ := sweepStep_unsub_mem habs
    have hu : u = x.2 := keys_nodup_eq hnd humem hx1
    rw [hu] at hustale
    exact hx.2 hustale

/-- Every playback or reaper step of the HLS subsystem preserves the
invariant.  A `finish` step does not: `UnsubscribeAll` deactivates the
subscription while the activity entry survives. -/
lemma sysInv_stepSys (self : String) (s : SysState) (e : SysEv)
    (hf : isFinish e = false) (h : SysInv s) :
    SysInv (stepSys self s e) := by
  cases e with
  | play ev => exact sysInv_applyPlay self s ev h
  | reap now => exact sysInv_applyReap HLSUnsubscribeWaitLimit now s h
  | finish addr => simp [isFinish] at hf

/-- The invariant holds along every execution free of publish-session
finishes. -/
lemma sysInv_runSys (self : String) (evs : List SysEv) :
    ∀ s : SysState, (∀ e ∈ evs, isFinish e = false) → SysInv s →
      SysInv (runSys self s evs) := by
  induction evs with
  | nil => exact fun s _ h => h
  | cons e es ih =>
    intro s hnf h
    simp only [runSys]
    exact ih _ (fun e' he' => hnf e' (List.mem_cons_of_mem _ he'))
      (sysInv_stepSys self s e (hnf e (List.mem_cons_self _ _)) h)

/-- The buffer phase when no muxer exists, subscribing succeeds, and polling
reports readiness. -/
lemma bufferPhase_ready_subscribe (env : HlsPlayEnv) (id : String)
    (hmux : env.existingMuxer = none) (hsub : env.subscribeResult = none)
    {n e : Nat} (hpoll : pollLoop env.ready env.overhead 0 0 = .ready n e) :
    bufferPhase env id =
      (.ok env.newBufferId,
        [.getMuxer id "local", .subscribeHLS id "local", .refreshTimer id]) := by
  simp only [bufferPhase, pollPhase, hmux, hsub, hpoll]

/-- A playback request for `addrX` that subscribes but never observes a ready
playlist. -/
def evTimeoutPlay : PlayEv := ⟨pathX, true, true, fun _ => false, fun _ => 0, 0⟩

/-- A playback request for `addrX` whose first poll observes a ready
playlist at time 5. -/
def evReadyPlay : PlayEv := ⟨pathX, true, true, fun _ => true, fun _ => 0, 5⟩

/-- Executing the timing-out playback request from the empty state leaves an
active subscription and no activity entry. -/
lemma run_evTimeoutPlay :
    runSys "" ⟨[], []⟩ [SysEv.play evTimeoutPlay] = ⟨[addrX], []⟩ := by
  have hparse : parseStreamID evTimeoutPlay.reqPath = addrX := by decide
  have hpoll : pollLoop (playEnvOf "" ⟨[], []⟩ evTimeoutPlay).ready
      (playEnvOf "" ⟨[], []⟩ evTimeoutPlay).overhead 0 0 = .timeout 6 12000 := by
    rw [show (playEnvOf "" ⟨[], []⟩ evTimeoutPlay).ready = (fun _ => false) from rfl,
      show (playEnvOf "" ⟨[], []⟩ evTimeoutPlay).overhead = (fun _ => 0) from rfl]
    exact pollLoop_zero_overhead
  have hbp := bufferPhase_timeout_subscribe (playEnvOf "" ⟨[], []⟩ evTimeoutPlay)
    addrX rfl rfl hpoll
  have hfound := handleHLSPlay_found evTimeoutPlay.reqPath
    (playEnvOf "" ⟨[], []⟩ evTimeoutPlay) (by decide) (by decide) rfl
  rw [hparse, hbp] at hfound
  have heffs : (handleHLSPlay evTimeoutPlay.reqPath
      (playEnvOf "" ⟨[], []⟩ evTimeoutPlay)).2
      = [.getNetworkStream addrX, .getMuxer addrX "local",
          .subscribeHLS addrX "local"] := by
    rw [hfound]
  show applyPlay "" ⟨[], []⟩ evTimeoutPlay = ⟨[addrX], []⟩
  simp only [applyPlay, heffs, hparse]
  rw [if_pos ⟨by simp, rfl⟩, if_neg (by simp)]

/-- Executing the immediately-ready playback request from the empty state
activates the subscription and writes the activity entry. -/
lemma run_evReadyPlay :
    runSys "" ⟨[], []⟩ [SysEv.play evReadyPlay] = ⟨[addrX], [(addrX, 5)]⟩ := by
  have hparse : parseStreamID evReadyPlay.reqPath = addrX := by decide
  have hpoll : pollLoop (playEnvOf "" ⟨[], []⟩ evReadyPlay).ready
      (playEnvOf "" ⟨[], []⟩ evReadyPlay).overhead 0 0 = .ready 0 0 := by
    rw [show (playEnvOf "" ⟨[], []⟩ evReadyPlay).ready = (fun _ => true) from rfl]
    exact pollLoop_of_ready rfl
  have hbp := bufferPhase_ready_subscribe (playEnvOf "" ⟨[], []⟩ evReadyPlay)
    addrX rfl rfl hpoll
  have hfound := handleHLSPlay_found evReadyPlay.reqPath
    (playEnvOf "" ⟨[], []⟩ evReadyPlay) (by decide) (by decide) rfl
  rw [hparse, hbp] at hfound
  have heffs : (handleHLSPlay evReadyPlay.reqPath
      (playEnvOf "" ⟨[], []⟩ evReadyPlay)).2
      = [.getNetworkStream addrX, .getMuxer addrX "local",
          .subscribeHLS addrX "local", .refreshTimer addrX] := by
    rw [hfound]
  show applyPlay "" ⟨[], []⟩ evReadyPlay = ⟨[addrX], [(addrX, 5)]⟩
  simp only [applyPlay, heffs, hparse]
  rw [if_pos ⟨by simp, rfl⟩, if_pos (by simp)]
  rfl

/-- A publish-session finish after the successful playback request: the
`UnsubscribeAll` of `finishStream` deactivates the local subscription, while
the activity entry written by the playback request survives. -/
lemma run_evReadyPlay_finish :
    runSys "" ⟨[], []⟩ [SysEv.play evReadyPlay, SysEv.finish addrX]
      = ⟨[], [(addrX, 5)]⟩ := by
  show runSys "" (stepSys "" ⟨[], []⟩ (SysEv.play evReadyPlay)) [SysEv.finish addrX]
      = ⟨[], [(addrX, 5)]⟩
  rw [show stepSys "" ⟨[], []⟩ (SysEv.play evReadyPlay)
      = (⟨[addrX], [(addrX, 5)]⟩ : SysState) from run_evReadyPlay]
  show applyFinish addrX ⟨[addrX], [(addrX, 5)]⟩ = ⟨[], [(addrX, 5)]⟩
  simp [applyFinish]

/-- C3 counterexample: the "entry exists iff subscription active" invariant
fails in both directions.  Starting from the empty state, a playback request
that creates a buffer subscription but times out without ever reading a
playlist leaves the subscription active with no activity-map entry; and a
publish-session finish (`finishStream`, whose `UnsubscribeAll` deactivates
the local subscription without touching `hlsSubTimer`) leaves an activity
entry with no active subscription. -/
theorem c3_counterexample :
    (addrX ∈ (runSys "" ⟨[], []⟩ [SysEv.play evTimeoutPlay]).subs ∧
      addrX ∉ (runSys "" ⟨[], []⟩ [SysEv.play evTimeoutPlay]).timer.map Prod.fst) ∧
    (addrX ∈ (runSys "" ⟨[], []⟩
        [SysEv.play evReadyPlay, SysEv.finish addrX]).timer.map Prod.fst ∧
      addrX ∉ (runSys "" ⟨[], []⟩
        [SysEv.play evReadyPlay, SysEv.finish addrX]).subs) := by
  constructor
  · rw [run_evTimeoutPlay]
    exact ⟨List.mem_cons_self _ _, by simp⟩
  · rw [run_evReadyPlay_finish]
    exact ⟨by simp, by simp⟩

/-- C3 amended: in every execution of the HLS subsystem from the empty state
that contains no publish-session finish, an entry in the
subscription-activity map implies that a local HLS buffer subscription is
currently active for that address.  Neither direction holds of the full
program (see the counterexample): a request that subscribes but times out
leaves the subscription active with no entry, and `finishStream`'s
`UnsubscribeAll` deactivates the subscription while leaving the entry in
place until the reaper expires it. -/
theorem c3_entry_implies_active (self : String) (evs : List SysEv) (a : String)
    (hnf : ∀ e ∈ evs, isFinish e = false)
    (ha : a ∈ (runSys self ⟨[], []⟩ evs).timer.map Prod.fst) :
    a ∈ (runSys self ⟨[], []⟩ evs).subs :=
  (sysInv_runSys self evs ⟨[], []⟩ hnf ⟨by simp, by simp⟩).2 a ha

/-- C3 witness: a concrete finish-free execution in which the amended
theorem applies — the successful playback request leaves both the activity
entry and the active subscription for `addrX`. -/
theorem c3_entry_implies_active_witness :
    ((∀ e ∈ [SysEv.play evReadyPlay], isFinish e = false) ∧
      addrX ∈ (runSys "" ⟨[], []⟩ [SysEv.play evReadyPlay]).timer.map Prod.fst) ∧
    addrX ∈ (runSys "" ⟨[], []⟩ [SysEv.play evReadyPlay]).subs := by
  have hnf : ∀ e ∈ [SysEv.play evReadyPlay], isFinish e = false := by
    intro e he
    rcases List.mem_singleton.mp he with rfl
    rfl
  have ha : addrX ∈ (runSys "" ⟨[], []⟩ [SysEv.play evReadyPlay]).timer.map Prod.fst := by
    rw [run_evReadyPlay]
    simp
  exact ⟨⟨hnf, ha⟩, c3_entry_implies_active "" [SysEv.play evReadyPlay] addrX hnf ha⟩

end Mediaserver
